import Mathlib

/-!
Verification of mcdownload's core subsystems against its specification.

The definitions below are shallow embeddings of the Rust sources:
* `src/minecraft.rs` — the version-identifier grammar (winnow parsers over
  `&str` become functions `List Char → Option (α × List Char)`: a parser
  either fails (backtrack) or returns the parsed value and remaining input;
  `Parser::parse` additionally requires the remainder to be empty);
* `src/net.rs` — the retrying fetch loop and the TTL-based response cache;
* `src/app.rs` — the install orchestration (dispatch loop, join loop,
  metadata-store lock traces, per-version install task).
-/

namespace Mcdl

/- ===== src/minecraft.rs : version identifier grammar ===== -/

/-- Struct `ReleaseVersionNumber` from src/minecraft.rs: `major.minor[.patch]`, u8 fields. -/
structure ReleaseVersionNumber where
  major : Nat
  minor : Nat
  patch : Nat
deriving DecidableEq, Repr

/-- Struct `PreReleaseVersionNumber` from src/minecraft.rs: a release plus a `pre<digits>` or `rc<digits>` label. -/
structure PreReleaseVersionNumber where
  release : ReleaseVersionNumber
  pre_release : String
deriving DecidableEq, Repr

/-- Struct `SnapshotVersionNumber` from src/minecraft.rs: two-digit year, `w`, two-digit week, one lowercase letter. -/
structure SnapshotVersionNumber where
  year : Nat
  week : Nat
  snapshot : Char
deriving DecidableEq, Repr

/-- Enum `VersionNumber` from src/minecraft.rs: the four-variant classification. -/
inductive VersionNumber where
  | Release (r : ReleaseVersionNumber)
  | PreRelease (p : PreReleaseVersionNumber)
  | Snapshot (s : SnapshotVersionNumber)
  | NonStandard (s : String)
deriving DecidableEq, Repr

/-- winnow's `digit1`: one or more ASCII digits, greedy. -/
def digit1 (i : List Char) : Option (List Char × List Char) :=
  let ds := i.takeWhile (fun c => c.isDigit)
  if ds.isEmpty then none else some (ds, i.drop ds.length)

/-- Numeric value of a digit string (what Rust's integer `FromStr` computes). -/
def digitsToNat (ds : List Char) : Nat :=
  ds.foldl (fun a c => a * 10 + (c.toNat - 48)) 0

/-- Running `parse_to::<u8>()` on a digit string: the value, unless it overflows `u8`. -/
def parse_u8 (ds : List Char) : Option Nat :=
  let n := digitsToNat ds
  if n ≤ 255 then some n else none

/-- Single-character literal parser (winnow `char` as used with `_: '.'` etc.). -/
def expectChar (c : Char) : List Char → Option (List Char)
  | x :: rest => if x = c then some rest else none
  | [] => none

/-- String literal parser (winnow `&str` tag, as in `alt(("pre", "rc"))`). -/
def expectLit : List Char → List Char → Option (List Char)
  | [], i => some i
  | c :: cs, i => (expectChar c i).bind (expectLit cs)

/-- Function `release_version` from src/minecraft.rs: `digit1 '.' digit1 [('.' digit1)]`,
each field parsed as u8; a missing patch field defaults to 0. -/
def release_version (i : List Char) : Option (ReleaseVersionNumber × List Char) := do
  let (dmaj, i) ← digit1 i
  let major ← parse_u8 dmaj
  let i ← expectChar '.' i
  let (dmin, i) ← digit1 i
  let minor ← parse_u8 dmin
  match (do
      let i2 ← expectChar '.' i
      let (dp, i2) ← digit1 i2
      let patch ← parse_u8 dp
      pure (patch, i2) : Option (Nat × List Char)) with
  | some (patch, i2) => some (⟨major, minor, patch⟩, i2)
  | none => some (⟨major, minor, 0⟩, i)

/-- Function `pre_release_version` from src/minecraft.rs: `release_version '-' ("pre"|"rc") digit1`. -/
def pre_release_version (i : List Char) : Option (PreReleaseVersionNumber × List Char) := do
  let (rv, i) ← release_version i
  let i ← expectChar '-' i
  let (tag, i) ← (match expectLit ['p', 'r', 'e'] i with
    | some r => some (("pre" : String), r)
    | none =>
      match expectLit ['r', 'c'] i with
      | some r => some (("rc" : String), r)
      | none => none)
  let (num, i) ← digit1 i
  pure (⟨rv, tag ++ String.mk num⟩, i)

/-- winnow `take_while(n, p)` with an exact count: exactly `n` characters satisfying `p`. -/
def take_while_exact (n : Nat) (p : Char → Bool) (i : List Char) : Option (List Char × List Char) :=
  let t := i.take n
  if t.length = n && t.all p then some (t, i.drop n) else none

/-- winnow `take_while(n.., p)`: greedily take characters satisfying `p`, at least `n` of them. -/
def take_while_min (n : Nat) (p : Char → Bool) (i : List Char) : Option (List Char × List Char) :=
  let t := i.takeWhile p
  if n ≤ t.length then some (t, i.drop t.length) else none

/-- Function `snapshot_version` from src/minecraft.rs: exactly 2 digits, `w`, exactly 2 digits,
exactly one lowercase letter. -/
def snapshot_version (i : List Char) : Option (SnapshotVersionNumber × List Char) := do
  let (dy, i) ← take_while_exact 2 (fun c => c.isDigit) i
  let year ← parse_u8 dy
  let i ← expectChar 'w' i
  let (dw, i) ← take_while_exact 2 (fun c => c.isDigit) i
  let week ← parse_u8 dw
  let (ds, i) ← take_while_exact 1 (fun c => ('a' ≤ c && c ≤ 'z')) i
  match ds with
  | [c] => some (⟨year, week, c⟩, i)
  | _ => none

/-- The character set of the NonStandard fallback in `version_number`:
ASCII alphanumerics plus `.`, `-`, `_` and space. -/
def non_standard_char (c : Char) : Bool :=
  c.isAlphanum || c = '.' || c = '-' || c = '_' || c = ' '

/-- Function `version_number` from src/minecraft.rs: `alt` over the variant parsers in the
source order — pre-release, release, snapshot, then the ≥4-character fallback. -/
def version_number (i : List Char) : Option (VersionNumber × List Char) :=
  match pre_release_version i with
  | some (v, r) => some (.PreRelease v, r)
  | none =>
    match release_version i with
    | some (v, r) => some (.Release v, r)
    | none =>
      match snapshot_version i with
      | some (v, r) => some (.Snapshot v, r)
      | none =>
        match take_while_min 4 non_standard_char i with
        | some (t, r) => some (.NonStandard (String.mk t), r)
        | none => none

/-- Impl `FromStr for VersionNumber` (winnow `Parser::parse`): run `version_number` and
require all input to be consumed. -/
def parseVersionNumber (s : String) : Option VersionNumber :=
  match version_number s.data with
  | some (v, []) => some v
  | _ => none

/-- Complete-match test for a sub-grammar (`Parser::parse` succeeding). -/
def parses {α : Type} (p : List Char → Option (α × List Char)) (s : String) : Bool :=
  match p s.data with
  | some (_, []) => true
  | _ => false

/-- Impl `Display for ReleaseVersionNumber`: elide a zero patch. -/
def ReleaseVersionNumber.display (r : ReleaseVersionNumber) : String :=
  if r.patch = 0 then toString r.major ++ "." ++ toString r.minor
  else toString r.major ++ "." ++ toString r.minor ++ "." ++ toString r.patch

/-- Impl `Display for PreReleaseVersionNumber` (derive_more): `release-label`. -/
def PreReleaseVersionNumber.display (p : PreReleaseVersionNumber) : String :=
  p.release.display ++ "-" ++ p.pre_release

/-- Impl `Display for SnapshotVersionNumber` (derive_more `{year}w{week}{snapshot}`):
note that the numeric fields are formatted with no zero padding. -/
def SnapshotVersionNumber.display (s : SnapshotVersionNumber) : String :=
  toString s.year ++ "w" ++ toString s.week ++ String.mk [s.snapshot]

/-- Impl `Display for VersionNumber` (derive_more): forward to the variant. -/
def VersionNumber.display : VersionNumber → String
  | .Release r => r.display
  | .PreRelease p => p.display
  | .Snapshot s => s.display
  | .NonStandard s => s

/- ===== src/net.rs : retrying fetch and TTL-based response cache ===== -/

/-- The `ureq::Error` variants `fetch_json` distinguishes: the first three are
matched by the retry arm; an HTTP status error (`http_status_as_error` default:
any non-2xx status, 4xx and 5xx alike) and every other error fall through to
the terminal arm. -/
inductive UreqError where
  | timeout
  | connectionFailed
  | hostNotFound
  | statusCode (code : Nat)
  | other
deriving DecidableEq, Repr

/-- Response headers `get_cached` inspects (absent header modelled as `none`). -/
structure HttpHeaders where
  cacheControl : Option String
  age : Option String
deriving DecidableEq, Repr

/-- Outcome of one `AGENT.get(path).call()` plus `read_json`: either a response
(whose body decodes to `some v` or fails to decode) or a transport/status error. -/
inductive CallResult (T : Type) where
  | success (body : Option T) (headers : HttpHeaders)
  | failure (e : UreqError)
deriving DecidableEq, Repr

/-- One scripted network attempt: its result and how long the call took (ms). -/
structure Attempt (T : Type) where
  result : CallResult T
  durationMs : Nat
deriving DecidableEq, Repr

/-- Result of `fetch_json`: success with the response headers, a JSON decode
failure (the `?` on `read_json`), a terminal transport/status error, the
max-retry-duration error, or the model running out of scripted attempts. -/
inductive FetchOutcome (T : Type) where
  | ok (v : T) (headers : HttpHeaders)
  | decodeError
  | transportError (e : UreqError)
  | retriesExhausted (attempts : Nat)
  | noScript
deriving DecidableEq, Repr

/-- Constant `max_duration` in `fetch_json`: 500 ms. -/
def maxDurationMs : Nat := 500

/-- The backoff computed in `fetch_json`: `25 * 2_u64.pow(attempts)` ms. -/
def backoffMs (attempts : Nat) : Nat := 25 * 2 ^ attempts

/-- The retry loop of `fetch_json` from src/net.rs, driven by a script of
attempt outcomes. State: `attempts` (retry counter), `elapsedMs` (the monotone
clock `start_time.elapsed()`, advanced by each call's duration and each sleep),
`calls` (how many HTTP calls were made, returned alongside the outcome).
`Timeout`, `ConnectionFailed` and `HostNotFound` re-enter the loop after
sleeping `min(backoff, remaining)`; every other error returns at once. -/
def fetchJsonLoop {T : Type} : List (Attempt T) → Nat → Nat → Nat → FetchOutcome T × Nat
  | [], _, _, calls => (.noScript, calls)
  | a :: rest, attempts, elapsedMs, calls =>
    match a.result with
    | .success none _ => (.decodeError, calls + 1)
    | .success (some v) h => (.ok v h, calls + 1)
    | .failure e =>
      match e with
      | .timeout | .connectionFailed | .hostNotFound =>
        let attempts2 := attempts + 1
        let elapsed2 := elapsedMs + a.durationMs
        if maxDurationMs ≤ elapsed2 then (.retriesExhausted attempts2, calls + 1)
        else
          let sleep := min (backoffMs attempts2) (maxDurationMs - elapsed2)
          fetchJsonLoop rest attempts2 (elapsed2 + sleep) (calls + 1)
      | _ => (.transportError e, calls + 1)

/-- Function `fetch_json` from src/net.rs: run the retry loop from a fresh start. -/
def fetchJson {T : Type} (script : List (Attempt T)) : FetchOutcome T × Nat :=
  fetchJsonLoop script 0 0 0

/-- ASCII whitespace, what `str::trim` removes from realistic header values. -/
def isAsciiWhitespace (c : Char) : Bool :=
  c = ' ' || c = '\t' || c = '\n' || c = '\r'

/-- Rust `str::trim`: drop leading and trailing whitespace. -/
def trimChars (l : List Char) : List Char :=
  ((l.dropWhile isAsciiWhitespace).reverse.dropWhile isAsciiWhitespace).reverse

/-- Rust `str::split(sep)`: split on a separator character; the empty string yields
one empty piece. -/
def splitOnChar (sep : Char) (l : List Char) : List (List Char) :=
  l.foldr
    (fun c acc =>
      match acc with
      | [] => [[c]]
      | cur :: rest => if c = sep then [] :: cur :: rest else (c :: cur) :: rest)
    [[]]

/-- Rust `str::starts_with(pat)` (input first, pattern second). -/
def startsWithChars : List Char → List Char → Bool
  | _, [] => true
  | [], _ :: _ => false
  | c :: cs, p :: ps => c = p && startsWithChars cs ps

/-- Rust `u64::from_str`: digits with an optional leading `+`, bounded by 2^64. -/
def parse_u64 (s : List Char) : Option Nat :=
  let t := match s with
    | '+' :: rest => rest
    | _ => s
  if t.isEmpty then none
  else if t.all (fun c => c.isDigit) then
    let n := digitsToNat t
    if n < 2 ^ 64 then some n else none
  else none

/-- The `Cache-Control` parsing chain in `get_cached`: split on commas, find the
first directive whose trimmed form starts with `max-age=`, strip that prefix
(8 characters) and parse the value. -/
def maxAgeFromCacheControl (h : List Char) : Option Nat :=
  match (splitOnChar ',' h).find? (fun d => startsWithChars (trimChars d) ("max-age=".data)) with
  | some d => parse_u64 ((trimChars d).drop 8)
  | none => none

/-- Value `server_ttl` in `get_cached`: the `max-age` value of a non-empty
`Cache-Control` header, in seconds. -/
def serverTtl (cacheControl : Option String) : Option Nat :=
  match cacheControl with
  | some h => if h.data.isEmpty then none else maxAgeFromCacheControl h.data
  | none => none

/-- Value `age` in `get_cached`: the value of a non-empty `Age` header, defaulting to 0. -/
def ageValue (age : Option String) : Nat :=
  match age with
  | some h => if h.data.isEmpty then 0 else (parse_u64 h.data).getD 0
  | none => 0

/-- Constant `DEFAULT_TTL` from src/net.rs: 600 seconds. -/
def defaultTtlSecs : Nat := 600

/-- Value `adjusted_ttl` in `get_cached`:
`server_ttl.or(ttl).unwrap_or(DEFAULT_TTL).saturating_sub(age)` (Nat subtraction
is saturating). -/
def adjustedTtl (h : HttpHeaders) (ttl : Option Nat) : Nat :=
  ((serverTtl h.cacheControl).or ttl).getD defaultTtlSecs - ageValue h.age

/-- A persisted `Cached<T>` envelope: payload plus absolute expiry (seconds). -/
structure Cached (T : Type) where
  inner : T
  expiry : Nat
deriving DecidableEq, Repr

/-- State of the cache file for one URI: absent, present but undecodable
(`Cached::load` fails), or a valid envelope. -/
inductive CacheFile (T : Type) where
  | missing
  | corrupt
  | valid (c : Cached T)
deriving DecidableEq, Repr

/-- The world one `get_cached` call runs against: the cache directory (keyed by
URI — `cache_path` derives a deterministic per-URI file path) and the scripted
network behavior for this call. -/
structure World (T : Type) where
  cache : String → CacheFile T
  script : List (Attempt T)

/-- Result of `get_cached`: the payload, or the propagated fetch failure. -/
inductive GetOutcome (T : Type) where
  | ok (v : T)
  | fetchFailed (o : FetchOutcome T)
deriving DecidableEq, Repr

/-- Method `Cached::is_expired`: `SystemTime::now() > self.expiry`. -/
def Cached.isExpired {T : Type} (c : Cached T) (now : Nat) : Bool :=
  c.expiry < now

/-- Function `get_cached` from src/net.rs. `ttl == Some(0)` bypasses the cache entirely;
otherwise a valid, unexpired envelope is returned without fetching; otherwise
fetch, resolve the TTL from the headers, and persist unless the resolved TTL is
zero. (`Cached::save` IO failure is outside the model.) -/
def getCached {T : Type} (uri : String) (ttl : Option Nat) (now : Nat) (w : World T) :
    GetOutcome T × World T :=
  if ttl = some 0 then
    match (fetchJson w.script).1 with
    | .ok v _ => (.ok v, w)
    | o => (.fetchFailed o, w)
  else
    let hit : Option T :=
      match w.cache uri with
      | .valid c => if c.isExpired now then none else some c.inner
      | _ => none
    match hit with
    | some v => (.ok v, w)
    | none =>
      match (fetchJson w.script).1 with
      | .ok v h =>
        let adj := adjustedTtl h ttl
        if adj = 0 then (.ok v, w)
        else
          (.ok v,
           { w with cache := fun u => if u = uri then .valid ⟨v, now + adj⟩ else w.cache u })
      | o => (.fetchFailed o, w)

/- ===== src/app.rs : install orchestration ===== -/

/-- A task's `Result<(), E>` as observed by the orchestrator. -/
inductive TaskOutcome (E : Type) where
  | ok
  | error (e : E)
deriving DecidableEq, Repr

/-- The `while let Some(result) = install_threads.join_next().await` loop of
`install_versions`, over task results in completion order (a `JoinError` and a
task-level error both propagate through the two `?`s, so they are collapsed
into one error type). The loop body re-raises the first error it sees, which
returns from `install_versions`; the second component is the list of results
that were consequently never awaited (those tasks are still in the `JoinSet`
when it is dropped, which aborts them). -/
def drainJoinSet {E : Type} : List (TaskOutcome E) → TaskOutcome E × List (TaskOutcome E)
  | [] => (.ok, [])
  | .ok :: rest => drainJoinSet rest
  | .error e :: rest => (.error e, rest)

/-- Operations a task performs on the shared `META` store, in program order.
`acquire`/`release` are `Mutex::lock` and the guard drop; `readCheck` is a
query (`instance_installed`/`jre_installed`), `mutate` is
`add_instance`/`add_jre`, `persist` is `save(META_PATH)`. -/
inductive MetaLockEvent where
  | acquire
  | release
  | readCheck
  | mutate
  | persist
deriving DecidableEq, Repr

/-- The `META` operations of the per-version install task in `install_versions`
on its successful path, transcribed from src/app.rs: the
`META.lock().instance_installed(..)` check (a temporary guard, dropped at the
end of the statement), then `let mut meta = cloned_meta.lock();
meta.add_instance(..); meta.save(..)?;` with the guard held to the end of the
task body. -/
def versionTaskLockTrace : List MetaLockEvent :=
  [.acquire, .readCheck, .release, .acquire, .mutate, .persist, .release]

/-- The `META` operations of `install_jre` on its successful path, transcribed
from src/app.rs: `META!().jre_installed(..)`, `META!().add_jre(..);`,
`META!().save(..)?;` — the `META!()` macro expands to `META.clone().lock()`,
a temporary guard dropped at the end of each statement, so each of the three
statements is its own acquire/release pair. -/
def jreTaskLockTrace : List MetaLockEvent :=
  [.acquire, .readCheck, .release, .acquire, .mutate, .release, .acquire, .persist, .release]

/-- The events strictly between the first `mutate` and the next `persist`. -/
def segmentBetweenMutateAndPersist (tr : List MetaLockEvent) : List MetaLockEvent :=
  ((tr.dropWhile (fun e => e ≠ .mutate)).drop 1).takeWhile (fun e => e ≠ .persist)

/-- Check that every store operation in the trace happens while the lock is
held (depth tracked through acquire/release). -/
def underLockOk : List MetaLockEvent → Nat → Bool
  | [], _ => true
  | .acquire :: r, d => underLockOk r (d + 1)
  | .release :: r, d => decide (0 < d) && underLockOk r (d - 1)
  | _ :: r, d => decide (0 < d) && underLockOk r d

/-- One entry of the sequential dispatch loop in `install_versions`: the
version's display id and the runtime major version its metadata requires. -/
structure InstallRequest where
  id : String
  jreMajor : Nat
deriving DecidableEq, Repr

/-- The dispatch loop of `install_versions` from src/app.rs, run sequentially
over the requested versions. `meta` answers `META!().jre_installed(..)`;
`queued` is the in-batch `jres_installed: Vec<u8>`. Each iteration spawns one
per-version install task (first component) and, when the required runtime
major is neither durably installed nor already queued in this batch, marks it
queued and spawns one runtime-install task (second component). -/
def installDispatch (meta : Nat → Bool) : List InstallRequest → List Nat → List String × List Nat
  | [], _ => ([], [])
  | v :: rest, queued =>
    if meta v.jreMajor || queued.contains v.jreMajor then
      let (vs, js) := installDispatch meta rest queued
      (v.id :: vs, js)
    else
      let (vs, js) := installDispatch meta rest (queued ++ [v.jreMajor])
      (v.id :: vs, v.jreMajor :: js)

/-- Scripted outcomes for the fallible steps of one per-version install task
(in the order the task body runs them). -/
structure TaskScript where
  hasServerDownload : Bool
  alreadyInstalled : Bool
  downloadOk : Bool
  createDirOk : Bool
  writeJarOk : Bool
  writeEulaOk : Bool
  writeSettingsOk : Bool
  saveMetaOk : Bool
deriving DecidableEq, Repr

/-- Observable effects of one per-version install task: which files were
written, whether the instance was added to the in-memory store
(`meta.add_instance`), and whether the store was then persisted (`meta.save`). -/
structure TaskState where
  jarWritten : Bool
  eulaWritten : Bool
  settingsWritten : Bool
  instanceRecorded : Bool
  metaPersisted : Bool
deriving DecidableEq, Repr

/-- The state a fresh version starts from: nothing written, nothing recorded. -/
def TaskState.initial : TaskState :=
  ⟨false, false, false, false, false⟩

/-- The body of the per-version install task spawned by `install_versions`,
transcribed from src/app.rs: return early (success) when the manifest lists no
server download or the instance is already installed; then download the jar,
create the instance directory, write `server.jar`, write `eula.txt`, save the
settings document; only then lock the store, `add_instance`, and `save`. Every
fallible step propagates its error with `?`, aborting the rest of the body. -/
def versionInstallTask (s : TaskScript) (st : TaskState) : TaskOutcome Unit × TaskState :=
  if !s.hasServerDownload then (.ok, st)
  else if s.alreadyInstalled then (.ok, st)
  else if !s.downloadOk then (.error (), st)
  else if !s.createDirOk then (.error (), st)
  else if !s.writeJarOk then (.error (), st)
  else
    let st := { st with jarWritten := true }
    if !s.writeEulaOk then (.error (), st)
    else
      let st := { st with eulaWritten := true }
      if !s.writeSettingsOk then (.error (), st)
      else
        let st := { st with settingsWritten := true }
        let st := { st with instanceRecorded := true }
        if !s.saveMetaOk then (.error (), st)
        else (.ok, { st with metaPersisted := true })

/- ===== Theorems ===== -/

/-- Helper: `takeWhile` keeps a list all of whose elements satisfy the predicate. -/
theorem takeWhile_of_all {p : Char → Bool} :
    ∀ l : List Char, l.all p = true → l.takeWhile p = l
  | [], _ => rfl
  | c :: cs, h => by
    simp only [List.all_cons, Bool.and_eq_true] at h
    simp [List.takeWhile_cons, h.1, takeWhile_of_all cs h.2]

/-- C1. The round-trip claim fails on the code, and the code contradicts the
spec's own display format: the canonical manifest snapshot string "13w05a"
(which is the display form of the `VersionNumber` `NonStandard "13w05a"`, so it
is canonical in the claim's sense) parses to `Snapshot {year 13, week 5, a}`,
whose `Display` output is "13w5a" — the derive_more format string
`{year}w{week}{snapshot}` has no zero padding — so `Display(Parse(s)) ≠ s`. -/
theorem snapshot_display_roundTrip_bug :
    parseVersionNumber "13w05a" = some (.Snapshot ⟨13, 5, 'a'⟩) ∧
    VersionNumber.display (.Snapshot ⟨13, 5, 'a'⟩) = "13w5a" ∧
    VersionNumber.display (.NonStandard "13w05a") = "13w05a" ∧
    ("13w5a" : String) ≠ "13w05a" := by
  refine ⟨by decide, by decide, by decide, by decide⟩

/-- C2. `version_number` tries the variant parsers in the fixed source order —
pre-release, release, snapshot, non-standard — returning the first success;
"1.20.1-pre1" parses to the `PreRelease` variant and "23w13a" to `Snapshot`. -/
theorem version_number_order :
    (∀ (i : List Char) (v : PreReleaseVersionNumber) (r : List Char),
       pre_release_version i = some (v, r) → version_number i = some (.PreRelease v, r)) ∧
    (∀ (i : List Char) (v : ReleaseVersionNumber) (r : List Char),
       pre_release_version i = none → release_version i = some (v, r) →
       version_number i = some (.Release v, r)) ∧
    (∀ (i : List Char) (v : SnapshotVersionNumber) (r : List Char),
       pre_release_version i = none → release_version i = none →
       snapshot_version i = some (v, r) → version_number i = some (.Snapshot v, r)) ∧
    (∀ (i t r : List Char),
       pre_release_version i = none → release_version i = none →
       snapshot_version i = none → take_while_min 4 non_standard_char i = some (t, r) →
       version_number i = some (.NonStandard (String.mk t), r)) ∧
    parseVersionNumber "1.20.1-pre1" = some (.PreRelease ⟨⟨1, 20, 1⟩, "pre1"⟩) ∧
    parseVersionNumber "23w13a" = some (.Snapshot ⟨23, 13, 'a'⟩) := by
  refine ⟨?_, ?_, ?_, ?_, by decide, by decide⟩
  · intro i v r h
    simp [version_number, h]
  · intro i v r h1 h2
    simp [version_number, h1, h2]
  · intro i v r h1 h2 h3
    simp [version_number, h1, h2, h3]
  · intro i t r h1 h2 h3 h4
    simp [version_number, h1, h2, h3, h4]

/-- C2 witness: the first conjunct applied to the concrete input "1.20.1-pre1". -/
theorem version_number_order_witness :
    version_number ("1.20.1-pre1".data) = some (.PreRelease ⟨⟨1, 20, 1⟩, "pre1"⟩, []) :=
  version_number_order.1 ("1.20.1-pre1".data) ⟨⟨1, 20, 1⟩, "pre1"⟩ [] (by decide)

/-- C3 counterexample: "1.14_combat-212796" consists of 18 characters from the
fallback set and matches none of the pre-release, release, or snapshot grammars
(as complete parses), yet `version_number.parse` fails on it instead of
returning `NonStandard`: `release_version` matches the proper prefix "1.14",
`alt` commits to it, and the outer `parse` rejects the trailing input. -/
theorem version_number_fallback_cex :
    parses pre_release_version "1.14_combat-212796" = false ∧
    parses release_version "1.14_combat-212796" = false ∧
    parses snapshot_version "1.14_combat-212796" = false ∧
    "1.14_combat-212796".data.all non_standard_char = true ∧
    4 ≤ "1.14_combat-212796".data.length ∧
    parseVersionNumber "1.14_combat-212796" = none ∧
    version_number ("1.14_combat-212796".data) =
      some (.Release ⟨1, 14, 0⟩, "_combat-212796".data) := by
  refine ⟨by decide, by decide, by decide, by decide, by decide, by decide, by decide⟩

/-- C3 amended. The fallback applies only to inputs on which all three
structured parsers fail outright (not merely fail to match the whole input):
such inputs of ≥4 fallback-set characters yield `NonStandard` carrying the
whole string. Moreover `version_number` fails exactly when all three
structured parsers fail and fewer than 4 leading characters are in the
fallback set — so, under the complete parse, parsing also fails for ≥4
character strings (such as "1.14_combat-212796") whose proper prefix matches a
structured grammar, not only for empty or short inputs. -/
theorem version_number_fallback_amended :
    (∀ i : List Char,
       pre_release_version i = none → release_version i = none →
       snapshot_version i = none → 4 ≤ i.length → i.all non_standard_char = true →
       version_number i = some (.NonStandard (String.mk i), [])) ∧
    (∀ i : List Char,
       version_number i = none ↔
         (pre_release_version i = none ∧ release_version i = none ∧
          snapshot_version i = none ∧ (i.takeWhile non_standard_char).length < 4)) := by
  constructor
  · intro i h1 h2 h3 h4 h5
    have ht : i.takeWhile non_standard_char = i := takeWhile_of_all i h5
    simp [version_number, h1, h2, h3, take_while_min, ht, h4, List.drop_length]
  · intro i
    unfold version_number
    cases h1 : pre_release_version i with
    | some p => simp [h1]
    | none =>
      cases h2 : release_version i with
      | some p => simp [h2]
      | none =>
        cases h3 : snapshot_version i with
        | some p => simp [h3]
        | none =>
          simp only [take_while_min]
          by_cases h4 : 4 ≤ (List.takeWhile non_standard_char i).length
          · simp [h4]
          · simp [h4]
            omega

/-- C3 amended witness: the fallback conjunct applied to "3D Shareware v1.34". -/
theorem version_number_fallback_amended_witness :
    version_number ("3D Shareware v1.34".data) =
      some (.NonStandard "3D Shareware v1.34", []) :=
  version_number_fallback_amended.1 ("3D Shareware v1.34".data)
    (by decide) (by decide) (by decide) (by decide) (by decide)

/-- C4 counterexample: a 5xx status is NOT retried — `fetch_json` returns a
server-error status after exactly one call (the retry arm matches only
`Timeout`, `ConnectionFailed` and `HostNotFound`), and the first backoff is
`25 * 2^1 = 50` ms (exponential), not a Fibonacci sequence starting at 200 ms.
Had a 5xx been retried, the scripted second attempt would have succeeded. -/
theorem fetch_retry_cex :
    fetchJson [⟨.failure (.statusCode 500), 10⟩, ⟨.success (some 42) ⟨none, none⟩, 10⟩] =
      ((.transportError (.statusCode 500) : FetchOutcome Nat), 1) ∧
    backoffMs 1 = 50 ∧ (50 : Nat) ≠ 200 := by
  refine ⟨by decide, by decide, by decide⟩

/-- C4 amended. The fetch path retries with exponential backoff
`25 * 2^attempts` ms (capped by the remaining share of the 500 ms total retry
window), retries exactly timeout, connection failure and host-resolution
failure, and returns any HTTP status error (4xx and 5xx alike) and any JSON
decode failure immediately after the failing attempt, without retrying. -/
theorem fetch_retry_amended :
    (∀ (T : Type) (rest : List (Attempt T)) (att el cal d c : Nat),
       fetchJsonLoop (⟨.failure (.statusCode c), d⟩ :: rest) att el cal =
         (.transportError (.statusCode c), cal + 1)) ∧
    (∀ (T : Type) (rest : List (Attempt T)) (att el cal d : Nat),
       fetchJsonLoop (⟨.failure .other, d⟩ :: rest) att el cal =
         (.transportError .other, cal + 1)) ∧
    (∀ (T : Type) (rest : List (Attempt T)) (att el cal d : Nat) (h : HttpHeaders),
       fetchJsonLoop (⟨.success none h, d⟩ :: rest) att el cal = (.decodeError, cal + 1)) ∧
    (∀ (T : Type) (rest : List (Attempt T)) (att el cal d : Nat) (e : UreqError),
       (e = .timeout ∨ e = .connectionFailed ∨ e = .hostNotFound) →
       el + d < maxDurationMs →
       fetchJsonLoop (⟨.failure e, d⟩ :: rest) att el cal =
         fetchJsonLoop rest (att + 1)
           (el + d + min (backoffMs (att + 1)) (maxDurationMs - (el + d))) (cal + 1)) ∧
    (∀ n : Nat, backoffMs n = 25 * 2 ^ n) := by
  refine ⟨?_, ?_, ?_, ?_, fun n => rfl⟩
  · intro T rest att el cal d c
    simp [fetchJsonLoop]
  · intro T rest att el cal d
    simp [fetchJsonLoop]
  · intro T rest att el cal d h
    simp [fetchJsonLoop]
  · intro T rest att el cal d e he hd
    rcases he with rfl | rfl | rfl <;>
      simp [fetchJsonLoop, Nat.not_le.mpr hd]

/-- C4 amended witness: the retry conjunct applied to a concrete timeout. -/
theorem fetch_retry_amended_witness :
    fetchJsonLoop ([⟨.failure .timeout, 10⟩] : List (Attempt Nat)) 0 0 0 =
      fetchJsonLoop ([] : List (Attempt Nat)) (0 + 1)
        (0 + 10 + min (backoffMs (0 + 1)) (maxDurationMs - (0 + 10))) (0 + 1) :=
  fetch_retry_amended.2.2.2.1 Nat [] 0 0 0 10 .timeout (Or.inl rfl) (by decide)

/-- C5 counterexample: the `Age` subtraction is applied to the resolved TTL
whatever its source, not only to the `max-age` case: with no `Cache-Control`
header, a caller-supplied TTL of 300 s and `Age: 20`, the persisted envelope
expires 280 s from now, not 300 s as the claim requires. -/
theorem ttl_age_cex :
    adjustedTtl ⟨none, some "20"⟩ (some 300) = 280 ∧
    ((getCached "u" (some 300) 1000
        (⟨fun _ => .missing, [⟨.success (some 7) ⟨none, some "20"⟩, 0⟩]⟩ : World Nat)).2.cache "u"
      = .valid ⟨7, 1280⟩) ∧
    (1280 : Nat) ≠ 1000 + 300 := by
  refine ⟨by decide, by decide, by decide⟩

/-- C5 amended. TTL precedence after a successful fetch is (a) the response's
`Cache-Control: max-age` value, else (b) the caller-supplied ttl, else (c) the
600 s default — and the response's `Age` value is then subtracted (floored at
zero, by saturation) from the resolved TTL *whichever* case applied. In
particular, for `Cache-Control: max-age=120` and `Age: 20` the persisted entry
expires 100 s from now regardless of any caller-supplied (non-bypass) TTL. -/
theorem ttl_precedence_amended :
    (∀ (h : HttpHeaders) (ttl : Option Nat) (s : Nat),
       serverTtl h.cacheControl = some s →
       adjustedTtl h ttl = s - ageValue h.age) ∧
    (∀ (h : HttpHeaders) (c : Nat),
       serverTtl h.cacheControl = none →
       adjustedTtl h (some c) = c - ageValue h.age) ∧
    (∀ h : HttpHeaders,
       serverTtl h.cacheControl = none →
       adjustedTtl h none = defaultTtlSecs - ageValue h.age) ∧
    (∀ (T : Type) (uri : String) (ttl : Option Nat) (now : Nat) (v : T) (w : World T),
       ttl ≠ some 0 →
       w.cache uri = .missing →
       w.script = [⟨.success (some v) ⟨some "max-age=120", some "20"⟩, 0⟩] →
       (getCached uri ttl now w).2.cache uri = .valid ⟨v, now + 100⟩) := by
  refine ⟨?_, ?_, ?_, ?_⟩
  · intro h ttl s hs
    simp [adjustedTtl, hs, Option.or]
  · intro h c hs
    simp [adjustedTtl, hs, Option.or]
  · intro h hs
    simp [adjustedTtl, hs, Option.or]
  · intro T uri ttl now v w httl hcache hscript
    have hadj : adjustedTtl ⟨some "max-age=120", some "20"⟩ ttl = 100 := by
      have hs : serverTtl (some "max-age=120") = some 120 := by decide
      have ha : ageValue (some "20") = 20 := by decide
      simp [adjustedTtl, hs, ha, Option.or]
    have hf : (fetchJson w.script).1 =
        .ok v ⟨some "max-age=120", some "20"⟩ := by
      rw [hscript]; rfl
    unfold getCached
    rw [if_neg httl]
    simp [hcache, hf, hadj]

/-- C5 amended witness: the persist conjunct applied to concrete inputs. -/
theorem ttl_precedence_amended_witness :
    ((getCached "u" (some 300) 1000
        (⟨fun _ => .missing, [⟨.success (some 9) ⟨some "max-age=120", some "20"⟩, 0⟩]⟩ :
          World Nat)).2.cache "u") = .valid ⟨9, 1000 + 100⟩ :=
  ttl_precedence_amended.2.2.2 Nat "u" (some 300) 1000 9
    ⟨fun _ => .missing, [⟨.success (some 9) ⟨some "max-age=120", some "20"⟩, 0⟩]⟩
    (by decide) rfl rfl

/-- C6. With `ttl = Some(Duration::ZERO)`, `get_cached` bypasses the cache
entirely: the resulting world is unchanged (no write for any URI), the result
does not depend on the cache contents at all (no read), and the result is
exactly the outcome of the unconditional fetch. -/
theorem getCached_bypass_frame :
    ∀ (T : Type) (uri : String) (now : Nat) (w : World T),
      (getCached uri (some 0) now w).2 = w ∧
      (∀ cache2 : String → CacheFile T,
        (getCached uri (some 0) now ⟨cache2, w.script⟩).1 =
          (getCached uri (some 0) now w).1) ∧
      (getCached uri (some 0) now w).1 =
        (match (fetchJson w.script).1 with
         | .ok v _ => .ok v
         | o => .fetchFailed o) := by
  intro T uri now w
  refine ⟨?_, fun cache2 => ?_, ?_⟩ <;> simp [getCached] <;>
    cases (fetchJson w.script).1 <;> simp

/-- C7 counterexample: the join loop does NOT await every spawned task when one
errors. With two tasks completing as [error, ok], the loop re-raises the first
error via `?` and returns from `install_versions` with the second task's result
never awaited (it is left in the `JoinSet`, whose drop aborts it). -/
theorem joinLoop_cex :
    drainJoinSet [(.error 0 : TaskOutcome Nat), .ok] = (.error 0, [.ok]) ∧
    ([(.ok : TaskOutcome Nat)] : List (TaskOutcome Nat)) ≠ [] := by
  refine ⟨by decide, by decide⟩

/-- C7 amended. The join loop awaits completed tasks only until the first error
in completion order: if no task errs, every result is awaited and the batch
succeeds; otherwise the first error is surfaced as the batch result and the
results completing after it are not awaited (the `JoinSet` is dropped while
they are still in it, aborting in-flight siblings). -/
theorem joinLoop_amended :
    (∀ (E : Type) (l : List (TaskOutcome E)),
       (∀ r ∈ l, r = .ok) → drainJoinSet l = (.ok, [])) ∧
    (∀ (E : Type) (pre post : List (TaskOutcome E)) (e : E),
       (∀ r ∈ pre, r = .ok) →
       drainJoinSet (pre ++ .error e :: post) = (.error e, post)) := by
  constructor
  · intro E l hl
    induction l with
    | nil => rfl
    | cons r rest ih =>
      have hr : r = .ok := hl r (List.mem_cons_self r rest)
      subst hr
      exact ih fun x hx => hl x (List.mem_cons_of_mem _ hx)
  · intro E pre post e hpre
    induction pre with
    | nil => rfl
    | cons r rest ih =>
      have hr : r = .ok := hpre r (List.mem_cons_self r rest)
      subst hr
      exact ih fun x hx => hpre x (List.mem_cons_of_mem _ hx)

/-- C7 amended witness: the second conjunct at a concrete completion order. -/
theorem joinLoop_amended_witness :
    drainJoinSet ([.ok] ++ (.error 5 : TaskOutcome Nat) :: [.ok]) = (.error 5, [.ok]) :=
  joinLoop_amended.2 Nat [.ok] [.ok] 5 (by decide)

/-- C8 counterexample: the JRE install task does NOT hold the metadata lock
from mutation through persist. In `install_jre`, `META!().add_jre(..)` and
`META!().save(..)` are separate statements, and `META!()` expands to
`META.clone().lock()` — a temporary guard dropped at each statement's end — so
the trace releases the lock after the mutation and re-acquires it for the
persist; the task also acquires the mutex three times, not once. -/
theorem jre_lock_release_cex :
    (.release ∈ segmentBetweenMutateAndPersist jreTaskLockTrace) ∧
    jreTaskLockTrace.count .acquire = 3 := by
  refine ⟨by decide, by decide⟩

/-- C8 amended. Every store operation of both install tasks runs under the
lock, and the per-version instance task commits as claimed — mutation and
persist under one acquisition with nothing in between — but the JRE task
releases the mutex between `add_jre` and `save` and persists under a separate
acquisition. -/
theorem lock_discipline_amended :
    segmentBetweenMutateAndPersist versionTaskLockTrace = [] ∧
    (.release ∉ segmentBetweenMutateAndPersist versionTaskLockTrace) ∧
    segmentBetweenMutateAndPersist jreTaskLockTrace = [.release, .acquire] ∧
    underLockOk versionTaskLockTrace 0 = true ∧
    underLockOk jreTaskLockTrace 0 = true := by
  refine ⟨by decide, by decide, by decide, by decide, by decide⟩

/-- Helper for C9: the dispatch loop spawns one version task per request, and
its runtime-task list has no duplicates, avoids everything already queued, and
contains only majors that are required by some request and not durably
installed. -/
theorem installDispatch_spec (meta : Nat → Bool) :
    ∀ (reqs : List InstallRequest) (queued : List Nat),
      (installDispatch meta reqs queued).1 = reqs.map (fun v => v.id) ∧
      (installDispatch meta reqs queued).2.Nodup ∧
      ∀ j ∈ (installDispatch meta reqs queued).2,
        j ∉ queued ∧ meta j = false ∧ j ∈ reqs.map (fun v => v.jreMajor) := by
  intro reqs
  induction reqs with
  | nil => intro queued; simp [installDispatch]
  | cons v rest ih =>
    intro queued
    by_cases hp : meta v.jreMajor = true ∨ v.jreMajor ∈ queued
    · obtain ⟨ih1, ih2, ih3⟩ := ih queued
      refine ⟨by simp [installDispatch, hp, ih1], by simpa [installDispatch, hp] using ih2, ?_⟩
      intro j hj
      simp [installDispatch, hp] at hj
      obtain ⟨h1, h2, h3⟩ := ih3 j hj
      exact ⟨h1, h2, by simp [h3]⟩
    · have hnp := not_or.mp hp
      have hmeta : meta v.jreMajor = false := by simpa using hnp.1
      have hqmem : v.jreMajor ∉ queued := hnp.2
      obtain ⟨ih1, ih2, ih3⟩ := ih (queued ++ [v.jreMajor])
      refine ⟨by simp [installDispatch, hp, ih1], ?_, ?_⟩
      · simp [installDispatch, hp, List.nodup_cons]
        exact ⟨fun hmem => (ih3 v.jreMajor hmem).1 (by simp), ih2⟩
      · intro j hj
        simp [installDispatch, hp] at hj
        rcases hj with rfl | hj2
        · exact ⟨hqmem, hmeta, by simp⟩
        · obtain ⟨h1, h2, h3⟩ := ih3 j hj2
          exact ⟨fun hm => h1 (by simp [hm]), h2, by simp [h3]⟩

/-- C9. At most one runtime-install task is spawned per distinct required
runtime major version: the runtime-task list produced by the single-threaded
dispatch loop has no duplicates, every spawned runtime major is required by
some request and not recorded as durably installed, every request still gets
its own version-install task, and concretely a batch of two versions that both
need runtime major 17 spawns both version tasks and exactly one runtime task. -/
theorem jre_dedup :
    (∀ (meta : Nat → Bool) (reqs : List InstallRequest),
       (installDispatch meta reqs []).2.Nodup) ∧
    (∀ (meta : Nat → Bool) (reqs : List InstallRequest) (j : Nat),
       j ∈ (installDispatch meta reqs []).2 →
       meta j = false ∧ j ∈ reqs.map (fun v => v.jreMajor)) ∧
    (∀ (meta : Nat → Bool) (reqs : List InstallRequest),
       (installDispatch meta reqs []).1 = reqs.map (fun v => v.id)) ∧
    installDispatch (fun _ => false) [⟨"1.20.1", 17⟩, ⟨"1.20.2", 17⟩] [] =
      (["1.20.1", "1.20.2"], [17]) := by
  refine ⟨?_, ?_, ?_, by decide⟩
  · intro meta reqs
    exact (installDispatch_spec meta reqs []).2.1
  · intro meta reqs j hj
    obtain ⟨_, h2, h3⟩ := (installDispatch_spec meta reqs []).2.2 j hj
    exact ⟨h2, h3⟩
  · intro meta reqs
    exact (installDispatch_spec meta reqs []).1

/-- C9 witness: the membership conjunct applied to the concrete batch. -/
theorem jre_dedup_witness :
    (fun _ => false) 17 = false ∧
    17 ∈ ([⟨"1.20.1", 17⟩, ⟨"1.20.2", 17⟩] : List InstallRequest).map
        (fun v => v.jreMajor) :=
  jre_dedup.2.1 (fun _ => false) [⟨"1.20.1", 17⟩, ⟨"1.20.2", 17⟩] 17 (by decide)

/-- C10. In the per-version install task, the instance is recorded in the
metadata store only after the server jar, eula.txt and the settings document
have all been written, and the store is persisted only after the record was
added: starting from a fresh state, a recorded instance implies all three
files were written; a persisted store implies the instance was recorded and
the task succeeded; and if any download or file write fails, the task errors
with the store untouched. -/
theorem version_task_meta_after_writes :
    ∀ s : TaskScript,
      ((versionInstallTask s TaskState.initial).2.instanceRecorded = true →
        (versionInstallTask s TaskState.initial).2.jarWritten = true ∧
        (versionInstallTask s TaskState.initial).2.eulaWritten = true ∧
        (versionInstallTask s TaskState.initial).2.settingsWritten = true) ∧
      ((versionInstallTask s TaskState.initial).2.metaPersisted = true →
        (versionInstallTask s TaskState.initial).2.instanceRecorded = true ∧
        (versionInstallTask s TaskState.initial).1 = .ok) ∧
      (s.hasServerDownload = true → s.alreadyInstalled = false →
       (s.downloadOk = false ∨ s.createDirOk = false ∨ s.writeJarOk = false ∨
        s.writeEulaOk = false ∨ s.writeSettingsOk = false) →
       (versionInstallTask s TaskState.initial).1 = .error () ∧
       (versionInstallTask s TaskState.initial).2.instanceRecorded = false ∧
       (versionInstallTask s TaskState.initial).2.metaPersisted = false) := by
  intro s
  obtain ⟨a, b, c, d, e, f, g, h⟩ := s
  cases a <;> cases b <;> cases c <;> cases d <;> cases e <;> cases f <;> cases g <;> cases h <;>
    refine ⟨by decide, by decide, by decide⟩

/-- C10 witness: the failure conjunct at a concrete script where the eula
write fails — the task errors and the store is untouched. -/
theorem version_task_meta_after_writes_witness :
    (versionInstallTask ⟨true, false, true, true, true, false, true, true⟩
        TaskState.initial).1 = .error () ∧
    (versionInstallTask ⟨true, false, true, true, true, false, true, true⟩
        TaskState.initial).2.instanceRecorded = false ∧
    (versionInstallTask ⟨true, false, true, true, true, false, true, true⟩
        TaskState.initial).2.metaPersisted = false :=
  (version_task_meta_after_writes ⟨true, false, true, true, true, false, true, true⟩).2.2
    rfl rfl (Or.inr (Or.inr (Or.inr (Or.inl rfl))))

end Mcdl
